import Mathlib

/-!
A shallow embedding of `src/fetch_users.py` (API User Fetcher v3.0).

Strings are modelled with explicit character-list operations so that every
definition evaluates inside the kernel.  Wall-clock instants are integers
(seconds); `datetime.now() - cache_time < timedelta(seconds=d)` becomes
`now - timestamp < d`.  Python dictionaries holding user data become a
structure of optional fields; Python's insertion-ordered counting dicts
become association lists.
-/

/-- Python `str.lower()` restricted to per-character lowering. -/
def lowerStr (s : String) : String := ⟨s.data.map Char.toLower⟩

/-- Python `pat in s` (contiguous substring containment). -/
def strContainsSub (s pat : String) : Bool := decide (pat.data <:+: s.data)

/-- Python `s.startswith(pat)`. -/
def strStarts (s pat : String) : Bool := pat.data.isPrefixOf s.data

/-- The characters strictly after the first occurrence of `c`, or `none`
when `c` does not occur (used to model `email.split('@')[1]`). -/
def dropThrough (c : Char) : List Char → Option (List Char)
  | [] => none
  | x :: xs => if x = c then some xs else dropThrough c xs

/-- The characters strictly before the first occurrence of `c`. -/
def takeUntil (c : Char) : List Char → List Char
  | [] => []
  | x :: xs => if x = c then [] else x :: takeUntil c xs

/-- Python `email.split('@')[1]` guarded by `'@' in email`: the chunk
between the first and second `@`, or `none` when `@` is absent. -/
def domainOf (email : String) : Option String :=
  (dropThrough '@' email.data).map fun rest => ⟨takeUntil '@' rest⟩

/-- The nested `address` mapping of a user record; only its `city` key is
ever consulted by the script. -/
structure Address where
  city : Option String
deriving DecidableEq

/-- The nested `company` mapping of a user record; only its `name` key is
ever consulted by the script. -/
structure Company where
  name : Option String
deriving DecidableEq

/-- One user record: a mapping with optional fields, as the script never
assumes any field is present. -/
structure User where
  name : Option String
  username : Option String
  email : Option String
  phone : Option String
  website : Option String
  address : Option Address
  company : Option Company
deriving DecidableEq

/-- Python `user.get('address', {}).get('city', dflt)`. -/
def cityOf (u : User) (dflt : String) : String :=
  (u.address.bind Address.city).getD dflt

/-- The parsed content of the cache file: `{timestamp, data}`. -/
structure CacheEntry where
  timestamp : Int
  data : List User
deriving DecidableEq

/-- The state of the cache file on disk: absent, present but failing to
parse (or any read error), or a parsed entry. -/
inductive CacheFileState where
  | missing
  | unreadable
  | entry (e : CacheEntry)
deriving DecidableEq

/-- `CacheManager.get`: `none` when the file is missing; any exception
while reading or parsing is swallowed into `none`; otherwise the stored
data exactly when `now - timestamp < cacheDuration` (strict). -/
def cacheGet : CacheFileState → Int → Int → Option (List User)
  | .missing, _, _ => none
  | .unreadable, _, _ => none
  | .entry e, d, now => if now - e.timestamp < d then some e.data else none

/-- `CacheManager.set`: overwrite the cache file with `{timestamp: now, data}`. -/
def cacheSet (users : List User) (now : Int) : CacheFileState :=
  .entry ⟨now, users⟩

/-- The outcome of the single HTTP GET performed by `fetch_users`. -/
inductive NetResponse where
  | timeout
  | connectionError
  | httpError (status : Nat)
  | transportError
  | parseError
  | ok (users : List User)
deriving DecidableEq

/-- The mutable state `fetch_users` interacts with: the cache file plus a
counter of network requests actually issued. -/
structure FetchState where
  cacheFile : CacheFileState
  networkCalls : Nat
deriving DecidableEq

/-- What one call of `fetch_users` produces: its return value, the cache
file afterwards, the updated request counter, and whether the
empty-list warning was printed. -/
structure FetchResult where
  result : Option (List User)
  cacheFile : CacheFileState
  networkCalls : Nat
  warnedEmpty : Bool
deriving DecidableEq

/-- Python truthiness of `cache.get()`'s result: `None` and `[]` are falsy. -/
def truthyOpt : Option (List User) → Bool
  | none => false
  | some l => !l.isEmpty

/-- The network branch of `fetch_users`: one GET, then
`raise_for_status` / JSON parsing mapped to `NetResponse`; an empty
parsed list returns `None` with a warning and is never cached; a
non-empty list is cached (when caching is on) and returned; every
exception path returns `None`. -/
def networkFetch (useCache : Bool) (now : Int) (net : NetResponse)
    (st : FetchState) : FetchResult :=
  match net with
  | .ok users =>
      if users.isEmpty then
        ⟨none, st.cacheFile, st.networkCalls + 1, true⟩
      else
        ⟨some users, if useCache then cacheSet users now else st.cacheFile,
          st.networkCalls + 1, false⟩
  | _ => ⟨none, st.cacheFile, st.networkCalls + 1, false⟩

/-- `UserFetcher.fetch_users`: when caching is on and `force_refresh` is
off, a truthy `cache.get()` short-circuits the request; otherwise the
network branch runs. -/
def fetchUsers (useCache forceRefresh : Bool) (cacheDuration now : Int)
    (net : NetResponse) (st : FetchState) : FetchResult :=
  if useCache && !forceRefresh then
    let cached := cacheGet st.cacheFile cacheDuration now
    if truthyOpt cached then
      ⟨cached, st.cacheFile, st.networkCalls, false⟩
    else
      networkFetch useCache now net st
  else
    networkFetch useCache now net st

/-- The city filter of `display_users`: keep a record unless `filter_by_s`
is set and its city (default `"N/A"`) does not start with `"S"`. -/
def cityFiltered (users : List User) (filterByS : Bool) : List User :=
  users.filter fun u => !filterByS || strStarts (cityOf u "N/A") "S"

/-- The truncation step of `display_users`: `if limit: l = l[:limit]`.
`None` and `0` are falsy, so no slicing happens for them; a positive
`n` keeps the first `n` records; a negative `n` drops the last `-n`
(Python slice semantics). -/
def applyLimit (users : List User) (limit : Option Int) : List User :=
  match limit with
  | none => users
  | some n =>
      if n = 0 then users
      else if 0 ≤ n then users.take n.toNat
      else users.take (users.length - (-n).toNat)

/-- The record selection `display_users` performs before rendering:
city filter, then limit. -/
def displaySelection (users : List User) (filterByS : Bool)
    (limit : Option Int) : List User :=
  applyLimit (cityFiltered users filterByS) limit

/-- The `--search-field` choices of the CLI. -/
inductive SearchField where
  | name
  | username
  | email
  | city
deriving DecidableEq

/-- The string `search_users` extracts for a field: `city` through the
nested address with default `''`, every other field via
`user.get(field, '')`. -/
def fieldValue (u : User) : SearchField → String
  | .name => u.name.getD ""
  | .username => u.username.getD ""
  | .email => u.email.getD ""
  | .city => cityOf u ""

/-- The per-record test of `search_users`: `query.lower() in value.lower()`. -/
def searchMatch (q : String) (f : SearchField) (u : User) : Bool :=
  strContainsSub (lowerStr (fieldValue u f)) (lowerStr q)

/-- `UserFetcher.search_users`: the accumulation loop over the records. -/
def searchUsers : List User → String → SearchField → List User
  | [], _, _ => []
  | u :: rest, q, f =>
      if searchMatch q f u then u :: searchUsers rest q f
      else searchUsers rest q f

/-- Restated from the spec sentence for `search`: a record matches when
the named field's string value contains the query as a
case-insensitive substring. -/
def specCiMatch (hay needle : String) : Bool :=
  decide ((lowerStr needle).data <:+: (lowerStr hay).data)

/-- `cities[city] = cities.get(city, 0) + 1` on an insertion-ordered
dict, modelled as an association list: bump the existing key or append
a fresh one at the tail. -/
def bumpCount : List (String × Nat) → String → List (String × Nat)
  | [], k => [(k, 1)]
  | (k2, v) :: rest, k =>
      if k2 = k then (k2, v + 1) :: rest
      else (k2, v) :: bumpCount rest k

/-- The `cities` dict built by `get_statistics`; a record without
`address.city` counts under `"Unknown"`. -/
def cityCounts (users : List User) : List (String × Nat) :=
  users.foldl (fun m u => bumpCount m (cityOf u "Unknown")) []

/-- The `domains` dict built by `get_statistics`; records whose email
lacks `@` are skipped. -/
def domainCounts (users : List User) : List (String × Nat) :=
  users.foldl
    (fun m u =>
      match domainOf (u.email.getD "") with
      | some dm => bumpCount m dm
      | none => m)
    []

/-- The scan of Python `max(items, key=lambda x: x[1])`: the running
best is replaced only on a strictly larger count. -/
def maxFrom (b : String × Nat) : List (String × Nat) → String × Nat
  | [] => b
  | y :: ys => if b.2 < y.2 then maxFrom y ys else maxFrom b ys

/-- `max(d.items(), key=lambda x: x[1])`, `none` on an empty dict (the
script guards with `if cities:` / `if domains:`). -/
def maxByCount : List (String × Nat) → Option (String × Nat)
  | [] => none
  | x :: xs => some (maxFrom x xs)

/-- The figures `get_statistics` prints. -/
structure Stats where
  total : Nat
  uniqueCities : Nat
  sCities : Nat
  mostCommonCity : Option (String × Nat)
  mostCommonDomain : Option (String × Nat)
deriving DecidableEq

/-- `UserFetcher.get_statistics`: `none` models the early return on
`not self.users`. -/
def getStatistics (users : List User) : Option Stats :=
  if users.isEmpty then none
  else
    some ⟨users.length,
      (cityCounts users).length,
      ((cityCounts users).filter fun p => strStarts p.1 "S").length,
      maxByCount (cityCounts users),
      maxByCount (domainCounts users)⟩

/-- What `main` reports back to the shell: the process exit status and
whether the no-search-results message was printed. -/
structure RunOutcome where
  exitCode : Nat
  printedNoMatch : Bool
deriving DecidableEq

/-- The control flow of `main` after argument parsing: `--clear-cache`
returns early; a failed fetch exits 1; a truthy `--search` argument
with no matches prints the not-found message and exits 0; every other
path runs to completion and exits 0. -/
def mainRun (noCache clearCacheFlag : Bool) (searchArg : Option String)
    (f : SearchField) (cacheDuration now : Int) (net : NetResponse)
    (st : FetchState) : RunOutcome :=
  if clearCacheFlag then ⟨0, false⟩
  else
    match (fetchUsers (!noCache) false cacheDuration now net st).result with
    | none => ⟨1, false⟩
    | some users =>
        match searchArg with
        | some q =>
            if q = "" then ⟨0, false⟩
            else if searchUsers users q f = [] then ⟨0, true⟩
            else ⟨0, false⟩
        | none => ⟨0, false⟩

/-- A record carrying just a name and a city, for concrete scenarios. -/
def demoUser (nm city : String) : User :=
  ⟨some nm, none, none, none, none, some ⟨some city⟩, none⟩

/-- The three-record scenario of the spec's statistics property. -/
def scenarioUsers : List User :=
  [demoUser "Leanne Graham" "Springfield",
   demoUser "Ervin Howell" "Boston",
   demoUser "Clementine Bauch" "Springfield"]

/-- A record with no address at all. -/
def noCityUser : User :=
  ⟨some "Nameless", none, none, none, none, none, none⟩

/-- Count held by an association list at a key (0 when absent), reading
the first matching pair as a Python dict lookup would. -/
def countOf (m : List (String × Nat)) (k : String) : Nat :=
  match m.find? (fun p => p.1 == k) with
  | some p => p.2
  | none => 0

/-- `e` is the first entry of `l` attaining the maximal count: every
earlier entry is strictly smaller, every entry at most `e`'s count. -/
def FirstMax (l : List (String × Nat)) (e : String × Nat) : Prop :=
  ∃ pre post, l = pre ++ e :: post ∧
    (∀ p ∈ pre, p.2 < e.2) ∧ (∀ p ∈ l, p.2 ≤ e.2)

/-- The network branch always issues exactly one request. -/
theorem networkFetch_networkCalls (useCache : Bool) (now : Int)
    (net : NetResponse) (st : FetchState) :
    (networkFetch useCache now net st).networkCalls = st.networkCalls + 1 := by
  cases net <;> try rfl
  simp only [networkFetch]
  split <;> rfl

/-- The scan of `maxFrom` either keeps its seed (when nothing beats it)
or lands on the first strictly-greater entry that is maximal. -/
theorem maxFrom_spec (l : List (String × Nat)) : ∀ b : String × Nat,
    (maxFrom b l = b ∧ ∀ p ∈ l, p.2 ≤ b.2) ∨
    (∃ pre e post, l = pre ++ e :: post ∧ maxFrom b l = e ∧ b.2 < e.2 ∧
      (∀ p ∈ pre, p.2 < e.2) ∧ (∀ p ∈ post, p.2 ≤ e.2)) := by
  induction l with
  | nil => intro b; left; exact ⟨rfl, by simp⟩
  | cons y ys ih =>
    intro b
    by_cases h : b.2 < y.2
    · rcases ih y with ⟨heq, hle⟩ | ⟨pre, e, post, hsplit, heq, hlt, hpre, hpost⟩
      · right
        refine ⟨[], y, ys, by simp, ?_, h, by simp, hle⟩
        simp [maxFrom, h, heq]
      · right
        refine ⟨y :: pre, e, post, by simp [hsplit], ?_, lt_trans h hlt, ?_, hpost⟩
        · simp [maxFrom, h, heq]
        · intro p hp
          rcases List.mem_cons.mp hp with hp | hp
          · exact hp ▸ hlt
          · exact hpre p hp
    · rcases ih b with ⟨heq, hle⟩ | ⟨pre, e, post, hsplit, heq, hlt, hpre, hpost⟩
      · left
        refine ⟨by simp [maxFrom, h, heq], ?_⟩
        intro p hp
        rcases List.mem_cons.mp hp with hp | hp
        · simpa [hp] using le_of_not_lt h
        · exact hle p hp
      · right
        refine ⟨y :: pre, e, post, by simp [hsplit], ?_, hlt, ?_, hpost⟩
        · simp [maxFrom, h, heq]
        · intro p hp
          rcases List.mem_cons.mp hp with hp | hp
          · exact hp ▸ lt_of_le_of_lt (le_of_not_lt h) hlt
          · exact hpre p hp

/-- Python `max(..., key=lambda x: x[1])` returns the first entry of the
insertion-ordered dict attaining the maximal count. -/
theorem maxByCount_firstMax (l : List (String × Nat)) (e : String × Nat)
    (h : maxByCount l = some e) : FirstMax l e := by
  match l with
  | [] => simp [maxByCount] at h
  | x :: xs =>
    have h : maxFrom x xs = e := by simpa [maxByCount] using h
    rcases maxFrom_spec xs x with ⟨heq, hle⟩ | ⟨pre, w, post, hsplit, heq, hlt, hpre, hpost⟩
    · have hex : e = x := by rw [← h, heq]
      subst hex
      refine ⟨[], xs, by simp, by simp, ?_⟩
      intro p hp
      rcases List.mem_cons.mp hp with hp | hp
      · exact hp ▸ le_rfl
      · exact hle p hp
    · have hew : w = e := by rw [← h, heq]
      subst hew
      refine ⟨x :: pre, post, by simp [hsplit], ?_, ?_⟩
      · intro p hp
        rcases List.mem_cons.mp hp with hp | hp
        · simpa [hp] using hlt
        · exact hpre p hp
      · intro p hp
        rcases List.mem_cons.mp hp with hp | hp
        · exact hp ▸ le_of_lt hlt
        · rw [hsplit] at hp
          rcases List.mem_append.mp hp with hp | hp
          · exact le_of_lt (hpre p hp)
          · rcases List.mem_cons.mp hp with hp | hp
            · exact hp ▸ le_rfl
            · exact hpost p hp

/-- Bumping a key raises exactly that key's count by one. -/
theorem countOf_bumpCount_self (m : List (String × Nat)) (k : String) :
    countOf (bumpCount m k) k = countOf m k + 1 := by
  induction m with
  | nil => simp [bumpCount, countOf]
  | cons p rest ih =>
    obtain ⟨k2, v⟩ := p
    by_cases h : k2 = k
    · subst h
      simp [bumpCount, countOf]
    · simp only [bumpCount, if_neg h]
      simp only [countOf, List.find?]
      have hbeq : (k2 == k) = false := beq_eq_false_iff_ne.mpr h
      simp [hbeq, countOf] at ih ⊢
      exact ih

/-- Bumping one key leaves every other key's count unchanged. -/
theorem countOf_bumpCount_ne (m : List (String × Nat)) (k j : String)
    (hne : j ≠ k) : countOf (bumpCount m j) k = countOf m k := by
  induction m with
  | nil => simp [bumpCount, countOf, beq_eq_false_iff_ne.mpr hne]
  | cons p rest ih =>
    obtain ⟨k2, v⟩ := p
    by_cases h : k2 = j
    · subst h
      simp [bumpCount, countOf, List.find?, beq_eq_false_iff_ne.mpr hne]
    · simp only [bumpCount, if_neg h]
      simp only [countOf, List.find?]
      cases hbeq : k2 == k with
      | true => rfl
      | false => simpa [countOf, hbeq] using ih

/-- Folding the counting loop over the records adds, at each key, the
number of records the key function sends to it. -/
theorem countOf_foldl_bump (g : User → String) (k : String)
    (users : List User) : ∀ m : List (String × Nat),
    countOf (users.foldl (fun m u => bumpCount m (g u)) m) k =
      countOf m k + users.countP (fun u => g u == k) := by
  induction users with
  | nil => intro m; simp
  | cons u rest ih =>
    intro m
    simp only [List.foldl_cons, List.countP_cons, ih (bumpCount m (g u))]
    by_cases h : g u = k
    · subst h
      simp [countOf_bumpCount_self]
      omega
    · simp [countOf_bumpCount_ne m k (g u) h, beq_eq_false_iff_ne.mpr h]

/-- The city-count map of `get_statistics` counts, at each key, exactly
the records whose (statistics-defaulted) city equals that key. -/
theorem countOf_cityCounts (users : List User) (k : String) :
    countOf (cityCounts users) k =
      users.countP (fun u => cityOf u "Unknown" == k) := by
  simpa [countOf] using countOf_foldl_bump (fun u => cityOf u "Unknown") k users []

/-- C1 counterexample: with a limit of `0`, the display selection keeps
the whole (city-filtered) sequence instead of returning the empty
sequence, because `if limit:` treats `0` as absent. -/
theorem claim_C1_counterexample :
    displaySelection [demoUser "Leanne Graham" "Springfield"] false (some 0) ≠ [] := by
  decide

/-- C1 (amended): during display, a limit `n` with `0 < n < length` keeps
exactly the first `n` records of the city-filtered sequence in order;
`n` at least the length leaves the sequence unchanged; `n = 0` performs
no truncation (it is treated like an absent limit, not as "keep
nothing"); an absent limit performs no truncation. -/
theorem claim_C1_limit_truncation (users : List User) (fS : Bool) (n : Int) :
    (0 < n → n.toNat < (cityFiltered users fS).length →
      displaySelection users fS (some n) = (cityFiltered users fS).take n.toNat) ∧
    (0 < n → (cityFiltered users fS).length ≤ n.toNat →
      displaySelection users fS (some n) = cityFiltered users fS) ∧
    displaySelection users fS (some 0) = cityFiltered users fS ∧
    displaySelection users fS none = cityFiltered users fS := by
  refine ⟨?_, ?_, ?_, rfl⟩
  · intro hn _
    simp only [displaySelection, applyLimit]
    rw [if_neg (by omega), if_pos (by omega)]
  · intro hn hlen
    simp only [displaySelection, applyLimit]
    rw [if_neg (by omega), if_pos (by omega)]
    exact List.take_of_length_le hlen
  · simp [displaySelection, applyLimit]

/-- C1 witness: limiting the three-record scenario to 2 keeps its first
two records. -/
theorem claim_C1_limit_truncation_witness :
    displaySelection scenarioUsers false (some 2) =
      (cityFiltered scenarioUsers false).take ((2 : Int)).toNat :=
  (claim_C1_limit_truncation scenarioUsers false 2).1 (by decide) (by decide)

/-- C2: `CacheManager.get` returns the stored records exactly when the
elapsed time `now - ts` is strictly below the cache duration; at the
boundary `now = ts + d` it returns nothing; a missing or unreadable
(unparseable / I/O error) cache file yields nothing rather than an
error. -/
theorem claim_C2_cache_window (ts d now : Int) (data : List User) :
    (cacheGet (.entry ⟨ts, data⟩) d now = some data ↔ now - ts < d) ∧
    cacheGet (.entry ⟨ts, data⟩) d (ts + d) = none ∧
    cacheGet .missing d now = none ∧
    cacheGet .unreadable d now = none := by
  refine ⟨?_, ?_, rfl, rfl⟩
  · by_cases h : now - ts < d <;> simp [cacheGet, h]
  · simp only [cacheGet]
    rw [if_neg (by omega)]

/-- C2 witness: with a 300-second duration, a read 299 seconds after the
write returns the data and a read at exactly 300 seconds returns
nothing. -/
theorem claim_C2_cache_window_witness :
    cacheGet (.entry ⟨0, scenarioUsers⟩) 300 299 = some scenarioUsers ∧
    cacheGet (.entry ⟨0, scenarioUsers⟩) 300 (0 + 300) = none :=
  ⟨(claim_C2_cache_window 0 300 299 scenarioUsers).1.mpr (by decide),
   (claim_C2_cache_window 0 300 299 scenarioUsers).2.1⟩

/-- C3: when the upstream body parses to `[]`, `fetch_users` returns
`None` after printing the empty-list warning, the cache file is left
untouched, and `main` then exits with status 1. -/
theorem claim_C3_empty_upstream (noCache : Bool) (d now : Int)
    (st : FetchState) (sArg : Option String) (f : SearchField)
    (hmiss : truthyOpt (cacheGet st.cacheFile d now) = false) :
    (fetchUsers (!noCache) false d now (.ok []) st).result = none ∧
    (fetchUsers (!noCache) false d now (.ok []) st).cacheFile = st.cacheFile ∧
    (fetchUsers (!noCache) false d now (.ok []) st).warnedEmpty = true ∧
    (mainRun noCache false sArg f d now (.ok []) st).exitCode = 1 := by
  have hfetch : fetchUsers (!noCache) false d now (.ok []) st =
      ⟨none, st.cacheFile, st.networkCalls + 1, true⟩ := by
    cases noCache <;> simp [fetchUsers, networkFetch, hmiss]
  refine ⟨by rw [hfetch], by rw [hfetch], by rw [hfetch], ?_⟩
  simp [mainRun, hfetch]

/-- C3 witness: with an empty cache, an upstream `[]` yields a `None`
result, an unchanged cache, the warning, and exit status 1. -/
theorem claim_C3_empty_upstream_witness :
    (fetchUsers (!false) false 300 0 (.ok []) ⟨.missing, 0⟩).result = none ∧
    (fetchUsers (!false) false 300 0 (.ok []) ⟨.missing, 0⟩).cacheFile =
      FetchState.cacheFile ⟨.missing, 0⟩ ∧
    (fetchUsers (!false) false 300 0 (.ok []) ⟨.missing, 0⟩).warnedEmpty = true ∧
    (mainRun false false none .name 300 0 (.ok []) ⟨.missing, 0⟩).exitCode = 1 :=
  claim_C3_empty_upstream false 300 0 ⟨.missing, 0⟩ none .name (by decide)

/-- C4: with caching on and no forced refresh, a truthy cache hit
short-circuits the network and returns the cached records; starting
from a cache miss, a successful fetch of a non-empty list writes the
records to the cache before returning them, and a second fetch inside
the cache window returns the same records while the network-request
counter still shows exactly one request. -/
theorem claim_C4_cache_short_circuit :
    (∀ (st : FetchState) (d now : Int) (net : NetResponse),
      truthyOpt (cacheGet st.cacheFile d now) = true →
      fetchUsers true false d now net st =
        ⟨cacheGet st.cacheFile d now, st.cacheFile, st.networkCalls, false⟩) ∧
    (∀ (users : List User) (d now1 now2 : Int) (net2 : NetResponse)
      (st : FetchState),
      users ≠ [] →
      truthyOpt (cacheGet st.cacheFile d now1) = false →
      now2 - now1 < d →
      (fetchUsers true false d now1 (.ok users) st).result = some users ∧
      (fetchUsers true false d now1 (.ok users) st).cacheFile = cacheSet users now1 ∧
      (fetchUsers true false d now1 (.ok users) st).networkCalls = st.networkCalls + 1 ∧
      (fetchUsers true false d now2 net2
        ⟨(fetchUsers true false d now1 (.ok users) st).cacheFile,
         (fetchUsers true false d now1 (.ok users) st).networkCalls⟩).result = some users ∧
      (fetchUsers true false d now2 net2
        ⟨(fetchUsers true false d now1 (.ok users) st).cacheFile,
         (fetchUsers true false d now1 (.ok users) st).networkCalls⟩).networkCalls =
        st.networkCalls + 1) := by
  constructor
  · intro st d now net hhit
    simp [fetchUsers, hhit]
  · intro users d now1 now2 net2 st hne hmiss hwin
    have hemp : users.isEmpty = false := by
      cases users with
      | nil => exact absurd rfl hne
      | cons u rest => rfl
    have hfetch1 : fetchUsers true false d now1 (.ok users) st =
        ⟨some users, cacheSet users now1, st.networkCalls + 1, false⟩ := by
      simp [fetchUsers, networkFetch, hmiss, hemp]
    have hget2 : cacheGet (cacheSet users now1) d now2 = some users := by
      simp [cacheGet, cacheSet, hwin]
    have hfetch2 : fetchUsers true false d now2 net2
        ⟨cacheSet users now1, st.networkCalls + 1⟩ =
        ⟨some users, cacheSet users now1, st.networkCalls + 1, false⟩ := by
      simp [fetchUsers, hget2, truthyOpt, hemp]
    refine ⟨by rw [hfetch1], by rw [hfetch1], by rw [hfetch1], ?_, ?_⟩
    · rw [hfetch1]
      rw [show FetchResult.cacheFile ⟨some users, cacheSet users now1,
        st.networkCalls + 1, false⟩ = cacheSet users now1 from rfl]
      rw [show FetchResult.networkCalls ⟨some users, cacheSet users now1,
        st.networkCalls + 1, false⟩ = st.networkCalls + 1 from rfl]
      rw [hfetch2]
    · rw [hfetch1]
      rw [show FetchResult.cacheFile ⟨some users, cacheSet users now1,
        st.networkCalls + 1, false⟩ = cacheSet users now1 from rfl]
      rw [show FetchResult.networkCalls ⟨some users, cacheSet users now1,
        st.networkCalls + 1, false⟩ = st.networkCalls + 1 from rfl]
      rw [hfetch2]

/-- C4 witness: a concrete cache hit short-circuits, and the concrete
two-call scenario issues exactly one network request. -/
theorem claim_C4_cache_short_circuit_witness :
    fetchUsers true false 300 50 .timeout ⟨.entry ⟨0, scenarioUsers⟩, 5⟩ =
      ⟨cacheGet (CacheFileState.entry ⟨0, scenarioUsers⟩) 300 50,
        FetchState.cacheFile ⟨.entry ⟨0, scenarioUsers⟩, 5⟩,
        FetchState.networkCalls ⟨.entry ⟨0, scenarioUsers⟩, 5⟩, false⟩ ∧
    (fetchUsers true false 300 100 .timeout
      ⟨(fetchUsers true false 300 0 (.ok scenarioUsers) ⟨.missing, 0⟩).cacheFile,
       (fetchUsers true false 300 0 (.ok scenarioUsers) ⟨.missing, 0⟩).networkCalls⟩).networkCalls =
      FetchState.networkCalls ⟨CacheFileState.missing, 0⟩ + 1 :=
  ⟨claim_C4_cache_short_circuit.1 ⟨.entry ⟨0, scenarioUsers⟩, 5⟩ 300 50 .timeout (by decide),
   (claim_C4_cache_short_circuit.2 scenarioUsers 300 0 100 .timeout ⟨.missing, 0⟩
      (by decide) (by decide) (by decide)).2.2.2.2⟩

/-- C5: `search_users` returns exactly the records whose named field's
string value (city through the nested address, missing fields as `""`)
contains the query case-insensitively, as a filter of the input, hence
preserving order (a sublist of the input) and returning `[]` on an
empty source. -/
theorem claim_C5_search_filter (users : List User) (q : String) (f : SearchField) :
    searchUsers users q f = users.filter (fun u => specCiMatch (fieldValue u f) q) ∧
    List.Sublist (searchUsers users q f) users ∧
    searchUsers [] q f = [] := by
  have hfil : ∀ l : List User,
      searchUsers l q f = l.filter (fun u => specCiMatch (fieldValue u f) q) := by
    intro l
    induction l with
    | nil => rfl
    | cons u rest ih =>
      show (if searchMatch q f u then u :: searchUsers rest q f
        else searchUsers rest q f) = _
      have hmatch : searchMatch q f u = specCiMatch (fieldValue u f) q := rfl
      by_cases h : searchMatch q f u
      · simp [h, List.filter_cons, ← hmatch, ih]
      · simp only [Bool.not_eq_true] at h
        simp [List.filter_cons, ← hmatch, h, ih]
  exact ⟨hfil users, (hfil users) ▸ List.filter_sublist users, rfl⟩

/-- C6: over the three-record scenario with cities Springfield, Boston,
Springfield, `get_statistics` reports 3 users, 2 unique cities, 1 city
starting with `"S"` and most common city `("Springfield", 2)`; and in
general the reported most common city and most common email domain are
the first entries of the respective insertion-ordered count maps
attaining the maximal count, so ties go to the first-inserted key. -/
theorem claim_C6_statistics :
    getStatistics scenarioUsers = some ⟨3, 2, 1, some ("Springfield", 2), none⟩ ∧
    (∀ (users : List User) (e : String × Nat),
      maxByCount (cityCounts users) = some e → FirstMax (cityCounts users) e) ∧
    (∀ (users : List User) (e : String × Nat),
      maxByCount (domainCounts users) = some e → FirstMax (domainCounts users) e) := by
  refine ⟨by decide, ?_, ?_⟩
  · intro users e h
    exact maxByCount_firstMax (cityCounts users) e h
  · intro users e h
    exact maxByCount_firstMax (domainCounts users) e h

/-- C6 witness: in the scenario, `("Springfield", 2)` is the
first-inserted entry of maximal count of the city map. -/
theorem claim_C6_statistics_witness :
    FirstMax (cityCounts scenarioUsers) ("Springfield", 2) :=
  claim_C6_statistics.2.1 scenarioUsers ("Springfield", 2) (by decide)

/-- C7: with `--clear-cache` off, `main` exits non-zero precisely when
`fetch_users` returned `None`; a truthy search argument whose search
yields no matches ends the run with status 0 after printing the
no-match message; and every successful-fetch path exits 0. -/
theorem claim_C7_exit_status (noCache : Bool) (sArg : Option String)
    (f : SearchField) (d now : Int) (net : NetResponse) (st : FetchState) :
    ((mainRun noCache false sArg f d now net st).exitCode ≠ 0 ↔
      (fetchUsers (!noCache) false d now net st).result = none) ∧
    (∀ (users : List User) (q : String),
      (fetchUsers (!noCache) false d now net st).result = some users →
      sArg = some q → q ≠ "" → searchUsers users q f = [] →
      mainRun noCache false sArg f d now net st = ⟨0, true⟩) ∧
    ((fetchUsers (!noCache) false d now net st).result ≠ none →
      (mainRun noCache false sArg f d now net st).exitCode = 0) := by
  refine ⟨?_, ?_, ?_⟩
  · cases hres : (fetchUsers (!noCache) false d now net st).result with
    | none => simp [mainRun, hres]
    | some users =>
      simp only [mainRun, if_neg (Bool.false_ne_true), hres]
      cases sArg with
      | none => simp
      | some q =>
        by_cases hq : q = ""
        · simp [hq]
        · by_cases hsearch : searchUsers users q f = [] <;> simp [hq, hsearch]
  · intro users q hres hsa hq hsearch
    subst hsa
    simp [mainRun, hres, hq, hsearch]
  · intro hres
    cases hres2 : (fetchUsers (!noCache) false d now net st).result with
    | none => exact absurd hres2 hres
    | some users =>
      simp only [mainRun, if_neg (Bool.false_ne_true), hres2]
      cases sArg with
      | none => simp
      | some q =>
        by_cases hq : q = ""
        · simp [hq]
        · by_cases hsearch : searchUsers users q f = [] <;> simp [hq, hsearch]

/-- C7 witness: a fetch of one record followed by a search for a string
it does not contain exits 0 with the no-match message printed. -/
theorem claim_C7_exit_status_witness :
    mainRun true false (some "zzz") .name 300 0 (.ok [noCityUser]) ⟨.missing, 0⟩ =
      ⟨0, true⟩ :=
  (claim_C7_exit_status true (some "zzz") .name 300 0 (.ok [noCityUser])
    ⟨.missing, 0⟩).2.1 [noCityUser] "zzz" (by decide) rfl (by decide) (by decide)

/-- C8: a cache entry inside the validity window whose stored data is the
empty list is returned by `CacheManager.get`, yet `fetch_users` treats
it as a miss (the value is tested for truthiness, and `[]` is falsy)
and issues the network request. -/
theorem claim_C8_empty_cache_data (ts d now : Int) (net : NetResponse)
    (c : Nat) (hwin : now - ts < d) :
    cacheGet (.entry ⟨ts, []⟩) d now = some [] ∧
    (fetchUsers true false d now net ⟨.entry ⟨ts, []⟩, c⟩).networkCalls = c + 1 := by
  have hget : cacheGet (.entry ⟨ts, []⟩) d now = some [] := by
    simp [cacheGet, hwin]
  refine ⟨hget, ?_⟩
  have hfalse : truthyOpt (cacheGet (CacheFileState.entry ⟨ts, []⟩) d now) = false := by
    simp [hget, truthyOpt]
  show (fetchUsers true false d now net ⟨.entry ⟨ts, []⟩, c⟩).networkCalls = c + 1
  simp only [fetchUsers, Bool.not_false, Bool.and_self, if_pos rfl, hfalse,
    Bool.false_eq_true, if_neg]
  exact networkFetch_networkCalls true now net ⟨.entry ⟨ts, []⟩, c⟩

/-- C8 witness: a fresh (100 of 300 seconds old) cache entry holding `[]`
still leads to a network request. -/
theorem claim_C8_empty_cache_data_witness :
    cacheGet (.entry ⟨0, []⟩) 300 100 = some [] ∧
    (fetchUsers true false 300 100 .timeout ⟨.entry ⟨0, []⟩, 0⟩).networkCalls = 0 + 1 :=
  claim_C8_empty_cache_data 0 300 100 .timeout 0 (by decide)

/-- C9: searching with the empty query returns the record sequence
unchanged, for every field: the lowered empty string is a substring of
every value, so the loop keeps everything. -/
theorem claim_C9_empty_query (users : List User) (f : SearchField) :
    searchUsers users "" f = users := by
  induction users with
  | nil => rfl
  | cons u rest ih =>
    have hmatch : searchMatch "" f u = true := by
      simp [searchMatch, strContainsSub, lowerStr]
    show (if searchMatch "" f u then u :: searchUsers rest "" f
      else searchUsers rest "" f) = u :: rest
    rw [if_pos hmatch, ih]

/-- C10: a record without `address.city` is counted by `get_statistics`
under `"Unknown"` — not under the `"N/A"` default the display path
uses — and whenever such a record is in the input, the city-count map
carries an `"Unknown"` entry with a positive count (so it contributes
to the unique-city total). -/
theorem claim_C10_unknown_city (u : User) (users : List User) :
    (u.address.bind Address.city = none →
      cityOf u "Unknown" = "Unknown" ∧ cityOf u "N/A" = "N/A" ∧
      cityOf u "Unknown" ≠ cityOf u "N/A") ∧
    (u ∈ users → u.address.bind Address.city = none →
      0 < countOf (cityCounts users) "Unknown" ∧
      ∃ n, 0 < n ∧ ("Unknown", n) ∈ cityCounts users) := by
  constructor
  · intro hmiss
    refine ⟨by simp [cityOf, hmiss], by simp [cityOf, hmiss], by simp [cityOf, hmiss]⟩
  · intro hmem hmiss
    have hcount : 0 < countOf (cityCounts users) "Unknown" := by
      rw [countOf_cityCounts]
      refine List.countP_pos_iff.mpr ⟨u, hmem, ?_⟩
      simp [cityOf, hmiss]
    refine ⟨hcount, ?_⟩
    rcases hfind : (cityCounts users).find? (fun p => p.1 == "Unknown") with _ | p
    · rw [countOf, hfind] at hcount
      exact absurd hcount (by simp)
    · have hp1 : p.1 = "Unknown" := by
        have := List.find?_some hfind
        simpa using this
      have hpmem : p ∈ cityCounts users := List.mem_of_find?_eq_some hfind
      have hp2 : p.2 = countOf (cityCounts users) "Unknown" := by
        rw [countOf, hfind]
      refine ⟨p.2, hp2 ▸ hcount, ?_⟩
      have : ("Unknown", p.2) = p := by
        rw [← hp1]
      rw [this]
      exact hpmem

/-- C10 witness: with one address-less record, the city map holds
`("Unknown", 1)`. -/
theorem claim_C10_unknown_city_witness :
    0 < countOf (cityCounts [noCityUser]) "Unknown" ∧
    ∃ n, 0 < n ∧ ("Unknown", n) ∈ cityCounts [noCityUser] :=
  (claim_C10_unknown_city noCityUser [noCityUser]).2 (by decide) (by decide)
